import Mathlib

/-!
Shallow embedding of `src/dashboard/generate-dashboard-redirect.py`.

Cluster queries (`run_command`) return `Option String`: `none` models a failed
command or empty (falsy) stripped stdout.  The stdlib JSON parser is abstracted
at its output: a `LoadResult` is either a decode error or a parsed `Json`
value.  Python's dynamic attribute/type errors are modelled explicitly with
`PyErr`, so code paths that would raise uncaught exceptions are visible as
`Except.error`.
-/

namespace DashboardRedirect

/-- Parsed JSON values, the post-`json.loads` domain (numbers restricted to
integers, which is all the claims need). An `obj` models a dict, keys unique. -/
inductive Json where
  | null
  | bool (b : Bool)
  | num (n : Int)
  | str (s : String)
  | arr (l : List Json)
  | obj (kvs : List (String × Json))

/-- Python exceptions that the script can raise (`KeyError`/`ValueError` from
`string.Template.substitute`, `AttributeError`/`TypeError` from dynamic access). -/
inductive PyErr where
  | attributeError
  | typeError
  | keyError (k : String)
  | valueError
deriving DecidableEq

/-- Result of `json.loads` on a truthy query output. -/
inductive LoadResult where
  | decodeError
  | ok (j : Json)

/-- Python truthiness of a JSON value. -/
def Json.truthy : Json → Bool
  | .null => false
  | .bool b => b
  | .num n => n != 0
  | .str s => !(s == "")
  | .arr l => !l.isEmpty
  | .obj kvs => !kvs.isEmpty

/-- Discriminator: is this JSON value a string? -/
def Json.isStr : Json → Bool
  | .str _ => true
  | _ => false

/-- First-match association-list lookup (models dict lookup; keys unique). -/
def alookup {α : Type} (m : List (String × α)) (k : String) : Option α :=
  match m with
  | [] => none
  | (k', v) :: r => if k' = k then some v else alookup r k

/-- Python `d.get(k, default)`: only dicts have `.get`; anything else raises
`AttributeError`. -/
def jGet (j : Json) (k : String) (d : Json) : Except PyErr Json :=
  match j with
  | .obj kvs => .ok ((alookup kvs k).getD d)
  | _ => .error .attributeError

/-- Python iteration over a JSON value: lists yield elements, strings yield
their characters, dicts yield their keys, anything else raises `TypeError`. -/
def pyIter (j : Json) : Except PyErr (List Json) :=
  match j with
  | .arr l => .ok l
  | .str s => .ok (s.data.map (fun c => Json.str (String.mk [c])))
  | .obj kvs => .ok (kvs.map (fun kv => Json.str kv.1))
  | _ => .error .typeError

/-- Substring test on character lists (Python `needle in haystack` for `str`). -/
def hasSubstr (needle : List Char) : List Char → Bool
  | [] => needle.isEmpty
  | c :: rest => needle.isPrefixOf (c :: rest) || hasSubstr needle rest

/-- Python `needle in x` for a string needle: substring test on strings,
membership on lists, key membership on dicts, `TypeError` otherwise. -/
def pyInStr (needle : String) (x : Json) : Except PyErr Bool :=
  match x with
  | .str s => .ok (hasSubstr needle.data s.data)
  | .arr l => .ok (l.any (fun j => match j with | .str t => t == needle | _ => false))
  | .obj kvs => .ok (kvs.any (fun kv => kv.1 == needle))
  | _ => .error .typeError

/-- Python `x == s` for a string literal `s`: true only for an equal string. -/
def pyEqStr (x : Json) (s : String) : Bool :=
  match x with
  | .str t => t == s
  | _ => false

/-- Python `x or d`. -/
def pyOr (x : Json) (d : Json) : Json :=
  if x.truthy then x else d

/-- Truthiness of a `run_command` result (`None` and `""` are falsy). -/
def optTruthy (o : Option String) : Bool :=
  match o with
  | some s => !(s == "")
  | none => false

/-- Platform descriptor: `(platform_type, namespace, route_name)`.  The
namespace component carries a `Json` value because the code returns
`namespace or default` where `namespace` came from a `.get` chain. -/
abbrev Descr := Option String × Option Json × Option String

/-- Body of the item loop in `detect_platform` (lines 74-82): classify one
item of the `odhdashboardconfig` list, `some` descriptor on a match,
`none` to continue the loop. -/
def itemClass (item : Json) : Except PyErr (Option Descr) :=
  match jGet item "metadata" (.obj []) with
  | .error e => .error e
  | .ok meta =>
    match jGet meta "annotations" (.obj []) with
    | .error e => .error e
    | .ok anns =>
      match jGet anns "platform.opendatahub.io/type" (.str "") with
      | .error e => .error e
      | .ok ann =>
        match jGet meta "namespace" (.str "") with
        | .error e => .error e
        | .ok ns =>
          match jGet meta "labels" (.obj []) with
          | .error e => .error e
          | .ok labels =>
            match jGet labels "app" (.str "") with
            | .error e => .error e
            | .ok app =>
              match pyInStr "OpenShift AI" ann with
              | .error e => .error e
              | .ok c1 =>
                if c1 || pyEqStr app "rhods-dashboard" then
                  .ok (some (some "rhoai", some (pyOr ns (.str "redhat-ods-applications")), some "rhods-dashboard"))
                else if pyEqStr app "odh-dashboard" then
                  .ok (some (some "odh", some (pyOr ns (.str "opendatahub")), some "odh-dashboard"))
                else
                  .ok none

/-- The `for item in data.get('items', [])` loop: first classified item wins. -/
def detectLoop : List Json → Except PyErr (Option Descr)
  | [] => .ok none
  | item :: rest =>
    match itemClass item with
    | .error e => .error e
    | .ok (some d) => .ok (some d)
    | .ok none => detectLoop rest

/-- The `odhdashboardconfig` stage of `detect_platform` (lines 67-84): absent
or empty output and JSON decode errors fall through (`.ok none`); dynamic
errors inside the loop propagate. -/
def dcStage (dc : Option LoadResult) : Except PyErr (Option Descr) :=
  match dc with
  | none => .ok none
  | some .decodeError => .ok none
  | some (.ok data) =>
    match jGet data "items" (.arr []) with
    | .error e => .error e
    | .ok items =>
      match pyIter items with
      | .error e => .error e
      | .ok l => detectLoop l

/-- `detect_platform` (lines 60-104), over the three query results:
`dc` the `odhdashboardconfig` output, `rh` the `rhods-operator` subscription
jsonpath output, `oh` the `opendatahub-operator` subscription jsonpath output. -/
def detect_platform (dc : Option LoadResult) (rh oh : Option String) : Except PyErr Descr :=
  match dcStage dc with
  | .error e => .error e
  | .ok (some d) => .ok d
  | .ok none =>
    if optTruthy rh then
      .ok (some "rhoai", some (Json.str "redhat-ods-applications"), some "rhods-dashboard")
    else if optTruthy oh then
      .ok (some "odh", some (Json.str "opendatahub"), some "odh-dashboard")
    else
      .ok (none, none, none)

/-- Python `s.rstrip('/')`: drop trailing slash characters. -/
def rstripSlashes (s : String) : String :=
  String.mk ((s.data.reverse.dropWhile (fun c => c = '/')).reverse)

/-- Body of the consolelink item loop in `discover_redirect_url` (lines
120-127): `some url` models the early `return`, `none` continues the loop. -/
def clItem (item : Json) : Except PyErr (Option String) :=
  match jGet item "spec" (.obj []) with
  | .error e => .error e
  | .ok sp =>
    match jGet sp "text" (.str "") with
    | .error e => .error e
    | .ok text =>
      match pyInStr "OpenShift AI" text with
      | .error e => .error e
      | .ok m1 =>
        match (if m1 then .ok true else pyInStr "Open Data Hub" text : Except PyErr Bool) with
        | .error e => .error e
        | .ok m =>
          if m then
            match jGet item "spec" (.obj []) with
            | .error e => .error e
            | .ok sp2 =>
              match jGet sp2 "href" (.str "") with
              | .error e => .error e
              | .ok href =>
                if href.truthy then
                  match href with
                  | .str h => .ok (some (rstripSlashes h))
                  | _ => .error .attributeError
                else
                  .ok none
          else
            .ok none

/-- The `for item in data.get('items', [])` loop over consolelinks. -/
def clLoop : List Json → Except PyErr (Option String)
  | [] => .ok none
  | item :: rest =>
    match clItem item with
    | .error e => .error e
    | .ok (some u) => .ok (some u)
    | .ok none => clLoop rest

/-- The consolelink stage of `discover_redirect_url` (lines 113-129). -/
def clStage (cl : Option LoadResult) : Except PyErr (Option String) :=
  match cl with
  | none => .ok none
  | some .decodeError => .ok none
  | some (.ok data) =>
    match jGet data "items" (.arr []) with
    | .error e => .error e
    | .ok items =>
      match pyIter items with
      | .error e => .error e
      | .ok l => clLoop l

/-- `discover_redirect_url` (lines 107-142): `cl` is the consolelink query
output, `routeHost` the `data-science-gateway` route jsonpath output. -/
def discover_redirect_url (cl : Option LoadResult) (routeHost : Option String) : Except PyErr (Option String) :=
  match clStage cl with
  | .error e => .error e
  | .ok (some u) => .ok (some u)
  | .ok none =>
    if optTruthy routeHost then
      .ok (some ("https://" ++ routeHost.getD ""))
    else
      .ok none

/-- Observable outcome of `auto_discover_values`: an uncaught Python
exception, a `sys.exit(1)`, or the completed value map. -/
inductive ADVOutcome where
  | crashed (e : PyErr)
  | exited
  | done (values : List (String × Json))

/-- The `for var in variables` loop of `auto_discover_values` (lines
179-205).  The returned `Bool` records whether `discover_redirect_url`
was invoked at any point. -/
def advLoop (cl : Option LoadResult) (routeHost : Option String) (override : Option String) :
    List String → List (String × Json) → Bool → ADVOutcome × Bool
  | [], values, inv => (.done values, inv)
  | var :: rest, values, inv =>
    if (alookup values var).isSome then
      advLoop cl routeHost override rest values inv
    else if var = "REDIRECT_URL" then
      if optTruthy override then
        advLoop cl routeHost override rest (values ++ [(var, Json.str (override.getD ""))]) inv
      else
        match discover_redirect_url cl routeHost with
        | .error e => (.crashed e, true)
        | .ok d =>
          if optTruthy d then
            advLoop cl routeHost override rest (values ++ [(var, Json.str (d.getD ""))]) true
          else
            (.exited, true)
    else
      (.exited, inv)

/-- `auto_discover_values` (lines 145-208) over the cluster query results:
detect the platform, seed `NAMESPACE`/`ROUTE_NAME` from the descriptor, then
resolve the remaining variables.  The second component records whether
`discover_redirect_url` was ever invoked. -/
def auto_discover_values (dc : Option LoadResult) (rh oh : Option String)
    (cl : Option LoadResult) (routeHost : Option String)
    (vars : List String) (override : Option String) : ADVOutcome × Bool :=
  match detect_platform dc rh oh with
  | .error e => (.crashed e, false)
  | .ok (pt, ns, rt) =>
    if optTruthy pt then
      let v0 : List (String × Json) :=
        if vars.contains "NAMESPACE" then [("NAMESPACE", ns.getD Json.null)] else []
      let v1 := v0 ++ (if vars.contains "ROUTE_NAME" then [("ROUTE_NAME", Json.str (rt.getD ""))] else [])
      advLoop cl routeHost override vars v1 false
    else
      (.exited, false)

/-- The scan of `discover_variables` (lines 16-25): left-to-right,
non-overlapping matches of the regex pattern for a dollar sign, an opening
brace, one or more non-closing-brace characters (greedy), and a closing
brace; on a failed match the scan advances by one character.  The fuel
argument (one unit per scan step, seeded with the input length by the
`findVars` wrapper) only makes the recursion structural. -/
def findVarsF : Nat → List Char → List (List Char)
  | _, [] => []
  | 0, _ :: _ => []
  | f + 1, c0 :: rest =>
    if c0 = '$' then
      match rest with
      | [] => []
      | c1 :: r1 =>
        if c1 = '{' then
          if ((r1.dropWhile (fun c => c ≠ '}')).head? = some '}') then
            if r1.takeWhile (fun c => c ≠ '}') = [] then findVarsF f rest
            else r1.takeWhile (fun c => c ≠ '}') :: findVarsF f ((r1.dropWhile (fun c => c ≠ '}')).tail)
          else findVarsF f rest
        else findVarsF f rest
    else findVarsF f rest

/-- The scan of `discover_variables`, at its natural fuel. -/
def findVars (s : List Char) : List (List Char) :=
  findVarsF s.length s

/-- The names found by the scan, as strings. -/
def varNames (s : List Char) : List String :=
  (findVars s).map (fun l => String.mk l)

/-- Lexicographic code-point comparison of character lists (Python string
comparison, as used by `sorted`). -/
def charListLe : List Char → List Char → Bool
  | [], _ => true
  | _ :: _, [] => false
  | a :: as, b :: bs =>
    if a < b then true
    else if b < a then false
    else charListLe as bs

/-- Python string comparison `a <= b`. -/
def strLe (a b : String) : Bool := charListLe a.data b.data

/-- Insert into a sorted list (one step of modelling Python `sorted`). -/
def insertSorted (x : String) : List String → List String
  | [] => [x]
  | y :: r => if strLe x y then x :: y :: r else y :: insertSorted x r

/-- Sort a list of strings by code-point order (models Python `sorted`). -/
def sortStrings (l : List String) : List String :=
  l.foldr insertSorted []

/-- `discover_variables` (lines 16-25): the set of found names, sorted
(Python builds a `set` of the matches and returns `sorted(...)` of it). -/
def discover_variables (s : List Char) : List String :=
  sortStrings (varNames s).dedup

/-- Start character of a Python identifier (the `(?a:[_a-zA-Z]...)` of
`string.Template`'s idpattern). -/
def isIdStart (c : Char) : Bool := c.isAlpha || c = '_'

/-- Continuation character of a Python identifier (`[_a-zA-Z0-9]`). -/
def isIdCont (c : Char) : Bool := c.isAlphanum || c = '_'

/-- `string.Template(content).substitute(m)` (line 219): scan for the
delimiter, handle the escaped / named / braced / invalid alternatives in
order; a missing key raises `KeyError`, an invalid placeholder raises
`ValueError`.  The fuel argument (one unit per scan step, seeded with the
input length by the `pySubstitute` wrapper) only makes the recursion
structural. -/
def pySubstituteF (m : List (String × String)) : Nat → List Char → Except PyErr (List Char)
  | _, [] => .ok []
  | 0, _ :: _ => .ok []
  | f + 1, c0 :: rest =>
    if c0 = '$' then
      match rest with
      | [] => .error .valueError
      | c1 :: r1 =>
        if c1 = '$' then
          match pySubstituteF m f r1 with
          | .ok out => .ok ('$' :: out)
          | .error e => .error e
        else if c1 = '{' then
          match r1 with
          | [] => .error .valueError
          | c :: cs =>
            if isIdStart c then
              if ((cs.dropWhile isIdCont).head? = some '}') then
                match alookup m (String.mk (c :: cs.takeWhile isIdCont)) with
                | some v =>
                  (match pySubstituteF m f ((cs.dropWhile isIdCont).tail) with
                   | .ok out => .ok (v.data ++ out)
                   | .error e => .error e)
                | none => .error (.keyError (String.mk (c :: cs.takeWhile isIdCont)))
              else .error .valueError
            else .error .valueError
        else if isIdStart c1 then
          match alookup m (String.mk (c1 :: r1.takeWhile isIdCont)) with
          | some v =>
            (match pySubstituteF m f (r1.dropWhile isIdCont) with
             | .ok out => .ok (v.data ++ out)
             | .error e => .error e)
          | none => .error (.keyError (String.mk (c1 :: r1.takeWhile isIdCont)))
        else .error .valueError
    else
      match pySubstituteF m f rest with
      | .ok out => .ok (c0 :: out)
      | .error e => .error e

/-- `string.Template(content).substitute(m)`, at its natural fuel. -/
def pySubstitute (m : List (String × String)) (s : List Char) : Except PyErr (List Char) :=
  pySubstituteF m s.length s

/-- One-shot replacement scan: replace the leftmost occurrence of `old`
(nonempty) and keep the rest of the text unchanged. -/
def replaceOnceGo (old new : List Char) : List Char → List Char
  | [] => []
  | c :: rest =>
    if old.isPrefixOf (c :: rest) then new ++ (c :: rest).drop old.length
    else c :: replaceOnceGo old new rest

/-- Python `s.replace(old, new, 1)`: replace the first occurrence only
(an empty `old` inserts `new` at the front). -/
def replaceOnce (old new s : List Char) : List Char :=
  match old with
  | [] => new ++ s
  | _ => replaceOnceGo old new s

/-- The spec/port marker of the primary route (line 230). -/
def specPortMarker : List Char := "spec:\n  port:".data

/-- The replacement text injecting the host line (line 231). -/
def injText (h : String) : List Char :=
  ("spec:\n  host: " ++ h ++ "\n  port:").data

/-- The host-injection step of `render_template` (lines 225-233). -/
def injectRouteHost (h : String) (rendered : List Char) : List Char :=
  replaceOnce specPortMarker (injText h) rendered

/-- Characters allowed after the first character of a URL scheme. -/
def isSchemeChar (c : Char) : Bool := c.isAlphanum || c = '+' || c = '-' || c = '.'

/-- Strip a leading valid `scheme:` from a URL, as `urllib.parse` does. -/
def urlAfterScheme (s : List Char) : List Char :=
  match s.dropWhile (fun c => c ≠ ':') with
  | ':' :: r =>
    match s.takeWhile (fun c => c ≠ ':') with
    | [] => s
    | c :: cs => if c.isAlpha && cs.all isSchemeChar then r else s
  | _ => s

/-- The netloc of a URL: present only after a double slash, ending at the
first slash, question mark or hash. -/
def netlocOf (s : List Char) : List Char :=
  match urlAfterScheme s with
  | '/' :: '/' :: r => r.takeWhile (fun c => c ≠ '/' && c ≠ '?' && c ≠ '#')
  | _ => []

/-- Hostname within a netloc: after the last at sign, before the port
colon, lowercased (IPv6 bracket syntax not modelled). -/
def hostOf (netloc : List Char) : List Char :=
  ((netloc.reverse.takeWhile (fun c => c ≠ '@')).reverse.takeWhile (fun c => c ≠ ':')).map Char.toLower

/-- `urllib.parse.urlparse(u).hostname` (line 242-243): `none` when empty. -/
def urlHostname (u : String) : Option String :=
  match hostOf (netlocOf u.data) with
  | [] => none
  | h => some (String.mk h)

/-- The legacy hostname derivation (lines 243-252): split the hostname at
the first dot; with no further domain segment there is no legacy host. -/
def legacyHost (redirectUrl : String) : Option String :=
  match urlHostname redirectUrl with
  | none => none
  | some h =>
    match h.data.dropWhile (fun c => c ≠ '.') with
    | '.' :: dom => some (String.mk ("data-science-gateway.".data ++ dom))
    | _ => none

/-- The optional host line of the appended legacy route (line 256). -/
def dsgHostLine (lh : Option String) : String :=
  match lh with
  | some h => "  host: " ++ h ++ "\n"
  | none => ""

/-- The appended `data-science-gateway-legacy` route document (lines
257-279), with the resolved namespace and optional legacy host. -/
def dsgRoute (ns : String) (lh : Option String) : List Char :=
  ("---\napiVersion: route.openshift.io/v1\nkind: Route\nmetadata:\n  name: data-science-gateway-legacy\n  namespace: "
    ++ ns
    ++ "\n  annotations:\n    haproxy.router.openshift.io/hsts_header: max-age=31536000;includeSubDomains;preload\n    kubernetes.io/tls-acme: \"true\"\n  labels:\n    app: nginx-redirect\nspec:\n"
    ++ dsgHostLine lh
    ++ "  port:\n    targetPort: http\n  tls:\n    insecureEdgeTerminationPolicy: Redirect\n    termination: edge\n  to:\n    kind: Service\n    name: nginx-redirect\n    weight: 100\n  wildcardPolicy: None\n").data

/-- `render_template` (lines 211-283) on the template text: substitute,
optionally inject the route-host override, and append the legacy route
when the resolved redirect URL contains the marker substring.  A
`KeyError` from substitution makes the script exit; the `NAMESPACE`
lookup in the appended document raises an uncaught `KeyError`. -/
def render_template (content : List Char) (values : List (String × String))
    (routeHostOverride : Option String) : Except PyErr (List Char) :=
  match pySubstitute values content with
  | .error e => .error e
  | .ok rendered0 =>
    let rendered1 :=
      if optTruthy routeHostOverride then injectRouteHost (routeHostOverride.getD "") rendered0
      else rendered0
    match alookup values "REDIRECT_URL" with
    | some url =>
      if hasSubstr "rh-ai".data url.data then
        match alookup values "NAMESPACE" with
        | some ns => .ok (rendered1 ++ dsgRoute ns (legacyHost url))
        | none => .error (.keyError "NAMESPACE")
      else .ok rendered1
    | none => .ok rendered1

/-- Templates in which every dollar sign starts a well-formed braced
placeholder whose name is a Python identifier.  The fuel argument (one
unit per scan step, seeded with the input length by the `goodTemplate`
wrapper) only makes the recursion structural. -/
def goodTemplateF : Nat → List Char → Bool
  | _, [] => true
  | 0, _ :: _ => false
  | f + 1, c0 :: rest =>
    if c0 = '$' then
      match rest with
      | [] => false
      | c1 :: r1 =>
        if c1 = '{' then
          match r1 with
          | [] => false
          | c :: cs =>
            if isIdStart c then
              if ((cs.dropWhile isIdCont).head? = some '}') then
                goodTemplateF f ((cs.dropWhile isIdCont).tail)
              else false
            else false
        else false
    else goodTemplateF f rest

/-- Well-formedness of a template, at its natural fuel. -/
def goodTemplate (s : List Char) : Bool :=
  goodTemplateF s.length s

/-! ## Helper lemmas -/

theorem replaceOnceGo_cons_pos (old new : List Char) (c : Char) (rest : List Char)
    (h : old.isPrefixOf (c :: rest) = true) :
    replaceOnceGo old new (c :: rest) = new ++ (c :: rest).drop old.length := by
  simp [replaceOnceGo, h]

theorem replaceOnceGo_cons_neg (old new : List Char) (c : Char) (rest : List Char)
    (h : old.isPrefixOf (c :: rest) = false) :
    replaceOnceGo old new (c :: rest) = c :: replaceOnceGo old new rest := by
  simp [replaceOnceGo, h]

/-- Replacing a nonempty pattern at its leftmost occurrence keeps the
surrounding text byte-for-byte. -/
theorem replaceOnceGo_first (old new : List Char) :
    ∀ a b : List Char, old ≠ [] →
    (∀ i, i < a.length → old.isPrefixOf ((a ++ old ++ b).drop i) = false) →
    replaceOnceGo old new (a ++ old ++ b) = a ++ new ++ b := by
  intro a
  induction a with
  | nil =>
    intro b hne _
    cases old with
    | nil => exact absurd rfl hne
    | cons o ot =>
      have hpre : (o :: ot).isPrefixOf ((o :: ot) ++ b) = true := by
        rw [ List.isPrefixOf_iff_prefix]
        exact List.prefix_append (o :: ot) b
      have hdrop : ((o :: ot) ++ b).drop (o :: ot).length = b := List.drop_left (o :: ot) b
      simp only [List.nil_append, List.cons_append] at hpre hdrop ⊢
      rw [replaceOnceGo_cons_pos (o :: ot) new o (ot ++ b) hpre, hdrop]
  | cons c a' ih =>
    intro b hne hfirst
    have h0 : old.isPrefixOf ((c :: a' ++ old ++ b).drop 0) = false := by
      exact hfirst 0 (by simp)
    simp only [List.drop_zero] at h0
    simp only [List.cons_append] at h0 ⊢
    rw [replaceOnceGo_cons_neg old new c (a' ++ old ++ b) h0]
    rw [ih b hne]
    intro i hi
    have := hfirst (i + 1) (by simpa using Nat.succ_lt_succ hi)
    simpa using this

/-- A fall-through item (`itemClass` yields `none`) is skipped. -/
theorem detectLoop_append_none (pre l : List Json)
    (h : ∀ j ∈ pre, itemClass j = .ok none) :
    detectLoop (pre ++ l) = detectLoop l := by
  induction pre with
  | nil => rfl
  | cons j pre' ih =>
    have hj := h j (by simp)
    simp only [List.cons_append, detectLoop, hj]
    exact ih (fun j' hj' => h j' (by simp [hj']))

/-! ## Claim C2 -/

/-- Claim C2 counterexample: well-formed JSON of unexpected shape (the
number 42) makes the detector raise `AttributeError` instead of falling
through to the subscription probes, which here would have classified the
platform as variant A. -/
theorem detect_malformed_cex :
    detect_platform (some (.ok (Json.num 42))) (some "rh-sub") none = .error .attributeError ∧
    detect_platform none (some "rh-sub") none
      = .ok (some "rhoai", some (Json.str "redhat-ods-applications"), some "rhods-dashboard") :=
  ⟨rfl, rfl⟩

/-- Claim C2 (amended): query output that is not well-formed JSON (a decode
error) is treated exactly as an absent result: the detector falls through
to the subscription probes instead of aborting. -/
theorem detect_decode_error_soft (rh oh : Option String) :
    detect_platform (some .decodeError) rh oh = detect_platform none rh oh := rfl

/-! ## Claim C3 -/

/-- Claim C3 counterexample: the platform-configuration query returns no
items and the variant-B subscription query is non-empty, yet the detector
returns variant A because the variant-A subscription query is also
non-empty. -/
theorem detect_odh_sub_cex :
    detect_platform (some (.ok (Json.obj [("items", Json.arr [])])))
        (some "rhods-operator-xyz") (some "opendatahub-operator-xyz")
      = .ok (some "rhoai", some (Json.str "redhat-ods-applications"), some "rhods-dashboard") ∧
    (some "rhoai" : Option String) ≠ some "odh" :=
  ⟨rfl, by decide⟩

/-- Claim C3 (amended): when the platform-configuration query returns no
items, the variant-A subscription probe returns nothing, and the variant-B
subscription probe returns any non-empty result, the detector returns the
variant-B descriptor. -/
theorem detect_odh_sub_amended (data : Json) (rh oh : Option String)
    (h1 : jGet data "items" (Json.arr []) = .ok (Json.arr []))
    (h2 : optTruthy rh = false) (h3 : optTruthy oh = true) :
    detect_platform (some (.ok data)) rh oh
      = .ok (some "odh", some (Json.str "opendatahub"), some "odh-dashboard") := by
  have hstage : dcStage (some (.ok data)) = .ok none := by
    simp only [dcStage]
    rw [h1]
    simp [pyIter, detectLoop]
  simp only [detect_platform, hstage, h2, h3]
  simp

/-- Claim C3 witness. -/
theorem detect_odh_sub_amended_witness :
    detect_platform (some (.ok (Json.obj [("items", Json.arr [])]))) none (some "opendatahub-operator-x")
      = .ok (some "odh", some (Json.str "opendatahub"), some "odh-dashboard") :=
  detect_odh_sub_amended (Json.obj [("items", Json.arr [])]) none (some "opendatahub-operator-x")
    rfl rfl rfl

/-! ## Claim C5 -/

/-- Claim C5: when platform detection returns the unknown descriptor, the
variable resolver exits (non-zero) at once, for any placeholder set, and
the redirect-URL discoverer is never invoked. -/
theorem adv_unknown_exits_early (dc : Option LoadResult) (rh oh : Option String)
    (cl : Option LoadResult) (routeHost : Option String)
    (vars : List String) (override : Option String)
    (h : detect_platform dc rh oh = .ok (none, none, none)) :
    auto_discover_values dc rh oh cl routeHost vars override = (.exited, false) := by
  unfold auto_discover_values
  rw [h]
  rfl

/-- Claim C5 witness. -/
theorem adv_unknown_exits_early_witness :
    detect_platform none none none = .ok (none, none, none) ∧
    auto_discover_values none none none none none ["REDIRECT_URL", "NAMESPACE"] none = (.exited, false) :=
  ⟨rfl, adv_unknown_exits_early none none none none none ["REDIRECT_URL", "NAMESPACE"] none rfl⟩

/-! ## Claim C7 -/

theorem replaceOnce_nonempty (old new s : List Char) (h : old ≠ []) :
    replaceOnce old new s = replaceOnceGo old new s := by
  cases old with
  | nil => exact absurd rfl h
  | cons o ot => rfl

/-- Claim C7: with a route-hostname override, when the rendered text
contains the spec/port marker more than once (the leftmost occurrence
shown first), only that first occurrence gains the injected host line;
the text before it and everything from the end of the first occurrence
on, including every later occurrence, is byte-for-byte unchanged. -/
theorem inject_first_marker_only (h : String) (a mid b : List Char)
    (hfirst : ∀ i, i < a.length →
      specPortMarker.isPrefixOf ((a ++ specPortMarker ++ (mid ++ specPortMarker ++ b)).drop i) = false) :
    injectRouteHost h (a ++ specPortMarker ++ (mid ++ specPortMarker ++ b))
      = a ++ injText h ++ (mid ++ specPortMarker ++ b) := by
  unfold injectRouteHost
  rw [replaceOnce_nonempty specPortMarker (injText h) _ (by decide)]
  exact replaceOnceGo_first specPortMarker (injText h) a (mid ++ specPortMarker ++ b) (by decide) hfirst

/-- Claim C7 witness. -/
theorem inject_first_marker_only_witness :
    injectRouteHost "custom.example.com" ("x\n".data ++ specPortMarker ++ ("M".data ++ specPortMarker ++ "B".data))
      = "x\n".data ++ injText "custom.example.com" ++ ("M".data ++ specPortMarker ++ "B".data) :=
  inject_first_marker_only "custom.example.com" ("x\n".data) ("M".data) ("B".data) (by decide)

/-! ## Claim C6 -/

/-- Claim C6: when the resolved redirect URL is exactly
`https://rh-ai.apps.example.com`, any successful rendering appends a
second route document whose injected host is
`data-science-gateway.apps.example.com`. -/
theorem render_rh_ai_legacy_append (content : List Char) (values : List (String × String))
    (ro : Option String) (ns : String) (out : List Char)
    (hurl : alookup values "REDIRECT_URL" = some "https://rh-ai.apps.example.com")
    (hns : alookup values "NAMESPACE" = some ns)
    (hout : render_template content values ro = .ok out) :
    ∃ base, out = base ++ dsgRoute ns (some "data-science-gateway.apps.example.com") := by
  unfold render_template at hout
  cases hps : pySubstitute values content with
  | error e =>
    rw [hps] at hout
    simp at hout
  | ok r0 =>
    rw [hps] at hout
    have hsub : hasSubstr ("rh-ai".data) ("https://rh-ai.apps.example.com".data) = true := by decide
    have hleg : legacyHost "https://rh-ai.apps.example.com"
        = some "data-science-gateway.apps.example.com" := by decide
    simp only [hurl, hns, hsub, hleg, if_true] at hout
    simp at hout
    exact ⟨_, hout.symm⟩

/-- Claim C6 witness. -/
theorem render_rh_ai_legacy_append_witness :
    ∃ base, dsgRoute "ns1" (some "data-science-gateway.apps.example.com")
      = base ++ dsgRoute "ns1" (some "data-science-gateway.apps.example.com") :=
  render_rh_ai_legacy_append []
    [("REDIRECT_URL", "https://rh-ai.apps.example.com"), ("NAMESPACE", "ns1")]
    none "ns1" (dsgRoute "ns1" (some "data-science-gateway.apps.example.com"))
    rfl rfl rfl

/-! ## Claim C4 -/

/-- Claim C4 counterexample: the item list contains an item whose
platform-type annotation contains the variant-A marker, yet the detector
returns variant B because an earlier item matched the variant-B rule. -/
theorem detect_rhoai_ann_cex :
    detect_platform (some (.ok (Json.obj [("items", Json.arr [
        Json.obj [("metadata", Json.obj [("labels", Json.obj [("app", Json.str "odh-dashboard")])])],
        Json.obj [("metadata", Json.obj [
          ("annotations", Json.obj [("platform.opendatahub.io/type", Json.str "OpenShift AI Self-Managed")]),
          ("namespace", Json.str "ns2")])]])]))) none none
      = .ok (some "odh", some (Json.str "opendatahub"), some "odh-dashboard") ∧
    (some "odh" : Option String) ≠ some "rhoai" :=
  ⟨rfl, by decide⟩

/-- Claim C4 (amended): when the platform-configuration query returns an
item whose platform-type annotation contains the variant-A marker and no
earlier item matches any classification rule, the detector returns
variant A with that item namespace (default when empty) and the fixed
variant-A route name, regardless of that item app label. -/
theorem detect_rhoai_ann_amended (pre rest : List Json) (a ns : String) (app : Json)
    (rh oh : Option String)
    (hpre : ∀ j ∈ pre, itemClass j = .ok none)
    (ha : hasSubstr ("OpenShift AI".data) a.data = true) :
    detect_platform (some (.ok (Json.obj [("items", Json.arr (pre ++
        Json.obj [("metadata", Json.obj [
          ("annotations", Json.obj [("platform.opendatahub.io/type", Json.str a)]),
          ("namespace", Json.str ns),
          ("labels", Json.obj [("app", app)])])] :: rest))]))) rh oh
      = .ok (some "rhoai",
             some (if ns = "" then Json.str "redhat-ods-applications" else Json.str ns),
             some "rhods-dashboard") := by
  have hitem : itemClass (Json.obj [("metadata", Json.obj [
        ("annotations", Json.obj [("platform.opendatahub.io/type", Json.str a)]),
        ("namespace", Json.str ns),
        ("labels", Json.obj [("app", app)])])])
      = .ok (some (some "rhoai",
             some (if ns = "" then Json.str "redhat-ods-applications" else Json.str ns),
             some "rhods-dashboard")) := by
    have hred : itemClass (Json.obj [("metadata", Json.obj [
          ("annotations", Json.obj [("platform.opendatahub.io/type", Json.str a)]),
          ("namespace", Json.str ns),
          ("labels", Json.obj [("app", app)])])])
        = (if hasSubstr ("OpenShift AI".data) a.data || pyEqStr app "rhods-dashboard" then
            Except.ok (some (some "rhoai", some (pyOr (Json.str ns) (Json.str "redhat-ods-applications")), some "rhods-dashboard"))
          else if pyEqStr app "odh-dashboard" then
            Except.ok (some (some "odh", some (pyOr (Json.str ns) (Json.str "opendatahub")), some "odh-dashboard"))
          else Except.ok none) := rfl
    rw [hred, ha]
    simp [pyOr, Json.truthy]
  have hloop : detectLoop (pre ++
      Json.obj [("metadata", Json.obj [
        ("annotations", Json.obj [("platform.opendatahub.io/type", Json.str a)]),
        ("namespace", Json.str ns),
        ("labels", Json.obj [("app", app)])])] :: rest)
      = .ok (some (some "rhoai",
             some (if ns = "" then Json.str "redhat-ods-applications" else Json.str ns),
             some "rhods-dashboard")) := by
    rw [detectLoop_append_none pre _ hpre]
    simp only [detectLoop, hitem]
  have hplat : detect_platform (some (.ok (Json.obj [("items", Json.arr (pre ++
        Json.obj [("metadata", Json.obj [
          ("annotations", Json.obj [("platform.opendatahub.io/type", Json.str a)]),
          ("namespace", Json.str ns),
          ("labels", Json.obj [("app", app)])])] :: rest))]))) rh oh
      = (match detectLoop (pre ++
          Json.obj [("metadata", Json.obj [
            ("annotations", Json.obj [("platform.opendatahub.io/type", Json.str a)]),
            ("namespace", Json.str ns),
            ("labels", Json.obj [("app", app)])])] :: rest) with
         | .error e => .error e
         | .ok (some d) => .ok d
         | .ok none =>
           if optTruthy rh then
             .ok (some "rhoai", some (Json.str "redhat-ods-applications"), some "rhods-dashboard")
           else if optTruthy oh then
             .ok (some "odh", some (Json.str "opendatahub"), some "odh-dashboard")
           else
             .ok (none, none, none)) := rfl
  rw [hplat, hloop]

/-- Claim C4 witness. -/
theorem detect_rhoai_ann_amended_witness :
    detect_platform (some (.ok (Json.obj [("items", Json.arr ([] ++
        Json.obj [("metadata", Json.obj [
          ("annotations", Json.obj [("platform.opendatahub.io/type", Json.str "OpenShift AI")]),
          ("namespace", Json.str ""),
          ("labels", Json.obj [("app", Json.str "odh-dashboard")])])] :: []))]))) none none
      = .ok (some "rhoai",
             some (if ("" : String) = "" then Json.str "redhat-ods-applications" else Json.str ""),
             some "rhods-dashboard") :=
  detect_rhoai_ann_amended [] [] "OpenShift AI" "" (Json.str "odh-dashboard") none none
    (by intro j hj; simp at hj) (by decide)

/-! ## Claim C9 -/

theorem pyOr_truthy (x d : Json) (hd : d.truthy = true) : (pyOr x d).truthy = true := by
  unfold pyOr
  split
  · assumption
  · exact hd

/-- Any descriptor produced by the item loop body is complete: platform
kind rhoai or odh, namespace defaulted through `pyOr`, fixed route name. -/
theorem itemClass_some_shape (item : Json) (d : Descr)
    (h : itemClass item = .ok (some d)) :
    (∃ x, d = (some "rhoai", some (pyOr x (Json.str "redhat-ods-applications")), some "rhods-dashboard")) ∨
    (∃ x, d = (some "odh", some (pyOr x (Json.str "opendatahub")), some "odh-dashboard")) := by
  unfold itemClass at h
  repeat' split at h
  all_goals try simp at h
  all_goals first
  | exact Or.inl ⟨_, h.symm⟩
  | exact Or.inr ⟨_, h.symm⟩

/-- Any descriptor produced by the item loop is complete. -/
theorem detectLoop_some_shape (l : List Json) (d : Descr)
    (h : detectLoop l = .ok (some d)) :
    (∃ x, d = (some "rhoai", some (pyOr x (Json.str "redhat-ods-applications")), some "rhods-dashboard")) ∨
    (∃ x, d = (some "odh", some (pyOr x (Json.str "opendatahub")), some "odh-dashboard")) := by
  induction l with
  | nil => simp [detectLoop] at h
  | cons item rest ih =>
    simp only [detectLoop] at h
    cases hic : itemClass item with
    | error e => rw [hic] at h; simp at h
    | ok o =>
      cases o with
      | none =>
        rw [hic] at h
        exact ih h
      | some d' =>
        rw [hic] at h
        simp at h
        subst h
        exact itemClass_some_shape item d' hic

/-- Any descriptor produced by the platform-configuration stage is complete. -/
theorem dcStage_some_shape (dc : Option LoadResult) (d : Descr)
    (h : dcStage dc = .ok (some d)) :
    (∃ x, d = (some "rhoai", some (pyOr x (Json.str "redhat-ods-applications")), some "rhods-dashboard")) ∨
    (∃ x, d = (some "odh", some (pyOr x (Json.str "opendatahub")), some "odh-dashboard")) := by
  unfold dcStage at h
  repeat' split at h
  all_goals try simp at h
  all_goals exact detectLoop_some_shape _ d h

/-- Claim C9 counterexample: adversarial query output can carry a
non-string namespace, which the detector passes through verbatim, so the
descriptor namespace need not be a string. -/
theorem detect_complete_cex :
    detect_platform (some (.ok (Json.obj [("items", Json.arr [Json.obj [("metadata", Json.obj [
        ("annotations", Json.obj [("platform.opendatahub.io/type", Json.str "OpenShift AI")]),
        ("namespace", Json.num 7)])]])]))) none none
      = .ok (some "rhoai", some (Json.num 7), some "rhods-dashboard") ∧
    (Json.num 7).isStr = false :=
  ⟨rfl, rfl⟩

/-- Claim C9 (amended): `detect_platform`, when it returns, yields either
the fully-unknown descriptor or a complete one: platform kind rhoai or
odh, a truthy namespace value (hence non-empty whenever it is a string),
and a non-empty route name; a partially-filled descriptor never occurs. -/
theorem detect_complete_amended (dc : Option LoadResult) (rh oh : Option String)
    (p : Option String) (ns : Option Json) (rt : Option String)
    (h : detect_platform dc rh oh = .ok (p, ns, rt)) :
    (p = none ∧ ns = none ∧ rt = none) ∨
    ((p = some "rhoai" ∨ p = some "odh") ∧
     (∃ j, ns = some j ∧ j.truthy = true) ∧
     (∃ r, rt = some r ∧ r ≠ "")) := by
  unfold detect_platform at h
  cases hdc : dcStage dc with
  | error e => rw [hdc] at h; simp at h
  | ok o =>
    cases o with
    | some d =>
      rw [hdc] at h
      simp at h
      rcases dcStage_some_shape dc d hdc with ⟨x, hx⟩ | ⟨x, hx⟩
      · have hx2 := hx
        rw [h] at hx2
        simp only [Prod.mk.injEq] at hx2
        exact Or.inr ⟨Or.inl hx2.1, ⟨_, hx2.2.1, pyOr_truthy x _ (by decide)⟩, ⟨_, hx2.2.2, by decide⟩⟩
      · have hx2 := hx
        rw [h] at hx2
        simp only [Prod.mk.injEq] at hx2
        exact Or.inr ⟨Or.inr hx2.1, ⟨_, hx2.2.1, pyOr_truthy x _ (by decide)⟩, ⟨_, hx2.2.2, by decide⟩⟩
    | none =>
      rw [hdc] at h
      dsimp only [] at h
      split at h
      · simp at h
        refine Or.inr ⟨Or.inl h.1.symm, ⟨_, h.2.1.symm, by decide⟩, ⟨_, h.2.2.symm, by decide⟩⟩
      · split at h
        · simp at h
          refine Or.inr ⟨Or.inr h.1.symm, ⟨_, h.2.1.symm, by decide⟩, ⟨_, h.2.2.symm, by decide⟩⟩
        · simp at h
          exact Or.inl ⟨h.1.symm, h.2.1.symm, h.2.2.symm⟩

/-- Claim C9 witness. -/
theorem detect_complete_amended_witness :
    ((some "rhoai" : Option String) = none ∧ (some (Json.str "redhat-ods-applications") : Option Json) = none ∧ (some "rhods-dashboard" : Option String) = none) ∨
    (((some "rhoai" : Option String) = some "rhoai" ∨ (some "rhoai" : Option String) = some "odh") ∧
     (∃ j, (some (Json.str "redhat-ods-applications") : Option Json) = some j ∧ j.truthy = true) ∧
     (∃ r, (some "rhods-dashboard" : Option String) = some r ∧ r ≠ "")) :=
  detect_complete_amended none (some "sub") none (some "rhoai")
    (some (Json.str "redhat-ods-applications")) (some "rhods-dashboard") rfl

/-! ## Claim C10 -/

theorem rstripSlashes_eq_empty (h : String) (he : rstripSlashes h = "") :
    h.data.all (fun c => c = '/') = true := by
  unfold rstripSlashes at he
  have h1 : (h.data.reverse.dropWhile (fun c => c = '/')).reverse = [] := congrArg String.data he
  rw [List.reverse_eq_nil_iff, List.dropWhile_eq_nil_iff] at h1
  rw [List.all_eq_true]
  intro c hc
  exact h1 c (List.mem_reverse.mpr hc)

/-- A consolelink item that returns a URL does so from a truthy string
href field, right-stripped of slashes. -/
theorem clItem_some_shape (item : Json) (u : String)
    (h : clItem item = .ok (some u)) :
    ∃ sp hstr, jGet item "spec" (Json.obj []) = .ok sp ∧
      jGet sp "href" (Json.str "") = .ok (Json.str hstr) ∧
      hstr ≠ "" ∧ u = rstripSlashes hstr := by
  unfold clItem at h
  repeat' split at h
  all_goals try simp at h
  all_goals simp_all [Json.truthy]

/-- A matching consolelink item with an empty or absent href yields no URL. -/
theorem clItem_skip (kvs : List (String × Json)) (text : String)
    (htext : alookup kvs "text" = some (Json.str text))
    (hm : hasSubstr ("OpenShift AI".data) text.data = true ∨ hasSubstr ("Open Data Hub".data) text.data = true)
    (hhref : alookup kvs "href" = none ∨ alookup kvs "href" = some (Json.str "")) :
    clItem (Json.obj [("spec", Json.obj kvs)]) = .ok none := by
  rcases hm with hm | hm <;> rcases hhref with hh | hh <;>
    simp_all [clItem, jGet, alookup, pyInStr, Json.truthy]

/-- An empty URL out of the consolelink loop can only come from a truthy
all-slash href. -/
theorem clLoop_empty_shape (l : List Json) (h : clLoop l = .ok (some "")) :
    ∃ item ∈ l, ∃ sp hstr, jGet item "spec" (Json.obj []) = .ok sp ∧
      jGet sp "href" (Json.str "") = .ok (Json.str hstr) ∧ hstr ≠ "" ∧
      hstr.data.all (fun c => c = '/') = true := by
  induction l with
  | nil => simp [clLoop] at h
  | cons item rest ih =>
    simp only [clLoop] at h
    cases hic : clItem item with
    | error e => rw [hic] at h; simp at h
    | ok o =>
      cases o with
      | none =>
        rw [hic] at h
        obtain ⟨i, hi, hrest⟩ := ih h
        exact ⟨i, by simp [hi], hrest⟩
      | some u =>
        rw [hic] at h
        simp at h
        subst h
        obtain ⟨sp, hstr, h1, h2, h3, h4⟩ := clItem_some_shape item "" hic
        exact ⟨item, by simp, sp, hstr, h1, h2, h3, rstripSlashes_eq_empty hstr h4.symm⟩

/-- Claim C10 counterexample: a matching consolelink item whose href is
the truthy string "/" makes the discoverer return the empty string. -/
theorem discover_url_empty_cex :
    discover_redirect_url (some (.ok (Json.obj [("items", Json.arr [Json.obj [("spec",
        Json.obj [("text", Json.str "Red Hat OpenShift AI"), ("href", Json.str "/")])]])]))) none
      = .ok (some "") := rfl

/-- Claim C10 (amended): a console-link item whose display text matches a
product-name substring but whose href is empty or absent is skipped and
iteration continues with the remaining items; the loop returns the empty
string only when some matching item has a truthy href consisting
entirely of slash characters. -/
theorem discover_url_skip_amended :
    (∀ (kvs : List (String × Json)) (text : String) (rest : List Json),
       alookup kvs "text" = some (Json.str text) →
       (hasSubstr ("OpenShift AI".data) text.data = true ∨ hasSubstr ("Open Data Hub".data) text.data = true) →
       (alookup kvs "href" = none ∨ alookup kvs "href" = some (Json.str "")) →
       clLoop (Json.obj [("spec", Json.obj kvs)] :: rest) = clLoop rest) ∧
    (∀ l : List Json, clLoop l = .ok (some "") →
       ∃ item ∈ l, ∃ sp hstr, jGet item "spec" (Json.obj []) = .ok sp ∧
         jGet sp "href" (Json.str "") = .ok (Json.str hstr) ∧ hstr ≠ "" ∧
         hstr.data.all (fun c => c = '/') = true) := by
  constructor
  · intro kvs text rest htext hm hhref
    simp only [clLoop, clItem_skip kvs text htext hm hhref]
  · exact clLoop_empty_shape

/-- Claim C10 witness. -/
theorem discover_url_skip_amended_witness :
    (clLoop [Json.obj [("spec", Json.obj [("text", Json.str "Red Hat OpenShift AI"), ("href", Json.str "")])]]
       = clLoop []) ∧
    (∃ item ∈ [Json.obj [("spec", Json.obj [("text", Json.str "Red Hat OpenShift AI"), ("href", Json.str "/")])]],
       ∃ sp hstr, jGet item "spec" (Json.obj []) = .ok sp ∧
         jGet sp "href" (Json.str "") = .ok (Json.str hstr) ∧ hstr ≠ "" ∧
         hstr.data.all (fun c => c = '/') = true) :=
  ⟨discover_url_skip_amended.1 [("text", Json.str "Red Hat OpenShift AI"), ("href", Json.str "")]
      "Red Hat OpenShift AI" [] rfl (Or.inl (by decide)) (Or.inr rfl),
   discover_url_skip_amended.2 _ rfl⟩

/-! ## Claim C8 -/

theorem charListLe_total : ∀ a b : List Char, charListLe a b = true ∨ charListLe b a = true := by
  intro a
  induction a with
  | nil => intro b; left; rfl
  | cons x xs ih =>
    intro b
    cases b with
    | nil => right; rfl
    | cons y ys =>
      rcases lt_trichotomy x y with h | h | h
      · left; simp [charListLe, h]
      · subst h
        rcases ih ys with h2 | h2
        · left; simp [charListLe, h2, lt_irrefl]
        · right; simp [charListLe, h2, lt_irrefl]
      · right; simp [charListLe, h]

theorem charListLe_antisymm : ∀ a b : List Char, charListLe a b = true → charListLe b a = true → a = b := by
  intro a
  induction a with
  | nil =>
    intro b _ h2
    cases b with
    | nil => rfl
    | cons y ys => simp [charListLe] at h2
  | cons x xs ih =>
    intro b h1 h2
    cases b with
    | nil => simp [charListLe] at h1
    | cons y ys =>
      rcases lt_trichotomy x y with h | h | h
      · simp [charListLe, h, lt_asymm h] at h2
      · subst h
        simp [charListLe, lt_irrefl] at h1 h2
        rw [ih ys h1 h2]
      · simp [charListLe, h, lt_asymm h] at h1

theorem charListLe_trans : ∀ a b c : List Char, charListLe a b = true → charListLe b c = true → charListLe a c = true := by
  intro a
  induction a with
  | nil => intro b c _ _; rfl
  | cons x xs ih =>
    intro b c h1 h2
    cases b with
    | nil => simp [charListLe] at h1
    | cons y ys =>
      cases c with
      | nil => simp [charListLe] at h2
      | cons z zs =>
        rcases lt_trichotomy x y with hxy | hxy | hxy
        · rcases lt_trichotomy y z with hyz | hyz | hyz
          · simp [charListLe, hxy.trans hyz]
          · subst hyz; simp [charListLe, hxy]
          · simp [charListLe, hyz, lt_asymm hyz] at h2
        · subst hxy
          rcases lt_trichotomy x z with hyz | hyz | hyz
          · simp [charListLe, hyz]
          · subst hyz
            simp [charListLe, lt_irrefl] at h1 h2 ⊢
            exact ih ys zs h1 h2
          · simp [charListLe, hyz, lt_asymm hyz] at h2
        · simp [charListLe, hxy, lt_asymm hxy] at h1

theorem strLe_antisymm (a b : String) (h1 : strLe a b = true) (h2 : strLe b a = true) : a = b := by
  cases a
  cases b
  have := charListLe_antisymm _ _ h1 h2
  simp_all

theorem insertSorted_eq_orderedInsert (x : String) (l : List String) :
    insertSorted x l = List.orderedInsert (fun a b => strLe a b = true) x l := by
  induction l with
  | nil => rfl
  | cons y r ih => simp [insertSorted, List.orderedInsert, ih]

theorem sortStrings_eq_insertionSort (l : List String) :
    sortStrings l = l.insertionSort (fun a b => strLe a b = true) := by
  induction l with
  | nil => rfl
  | cons x r ih =>
    simp only [sortStrings, List.foldr, List.insertionSort, insertSorted_eq_orderedInsert]
    rw [← ih]
    rfl

theorem sortStrings_sorted (l : List String) :
    (sortStrings l).Sorted (fun a b => strLe a b = true) := by
  haveI : IsTotal String (fun a b => strLe a b = true) := ⟨fun a b => charListLe_total a.data b.data⟩
  haveI : IsTrans String (fun a b => strLe a b = true) := ⟨fun a b c => charListLe_trans a.data b.data c.data⟩
  rw [sortStrings_eq_insertionSort]
  exact List.sorted_insertionSort _ l

theorem sortStrings_perm (l : List String) : List.Perm (sortStrings l) l := by
  rw [sortStrings_eq_insertionSort]
  exact List.perm_insertionSort _ l

/-- The names found by the scan each occur in the template text as a
dollar-brace marker with a nonempty, brace-free name. -/
theorem findVarsF_sound : ∀ (f : Nat) (s : List Char), ∀ nm ∈ findVarsF f s,
    ∃ a b, s = a ++ ('$' :: '{' :: nm) ++ ('}' :: b) ∧ nm ≠ [] ∧ '}' ∉ nm := by
  intro f
  induction f with
  | zero =>
    intro s nm hnm
    cases s <;> simp [findVarsF] at hnm
  | succ f ih =>
    intro s nm hnm
    cases s with
    | nil => simp [findVarsF] at hnm
    | cons c0 rest =>
      by_cases h0 : c0 = '$'
      case neg =>
        simp only [findVarsF, h0, if_false] at hnm
        obtain ⟨a, b, hab, hne, hmem⟩ := ih rest nm hnm
        exact ⟨c0 :: a, b, by simp [hab], hne, hmem⟩
      case pos =>
        subst h0
        cases rest with
        | nil => simp [findVarsF] at hnm
        | cons c1 r1 =>
          by_cases h1 : c1 = '{'
          case neg =>
            simp only [findVarsF, h1, if_false, if_true, reduceIte] at hnm
            obtain ⟨a, b, hab, hne, hmem⟩ := ih (c1 :: r1) nm hnm
            exact ⟨'$' :: a, b, by simp [hab], hne, hmem⟩
          case pos =>
            subst h1
            by_cases h2 : ((r1.dropWhile (fun c => c ≠ '}')).head? = some '}')
            case neg =>
              simp only [findVarsF, h2, if_false, if_true, reduceIte] at hnm
              obtain ⟨a, b, hab, hne, hmem⟩ := ih ('{' :: r1) nm hnm
              exact ⟨'$' :: a, b, by simp [hab], hne, hmem⟩
            case pos =>
              obtain ⟨dt, hdw⟩ : ∃ t, r1.dropWhile (fun c => c ≠ '}') = '}' :: t := by
                cases hd : r1.dropWhile (fun c => c ≠ '}') with
                | nil => rw [hd] at h2; simp at h2
                | cons d dt =>
                  rw [hd] at h2
                  simp at h2
                  exact ⟨dt, by rw [h2]⟩
              have hr1 : r1 = r1.takeWhile (fun c => c ≠ '}') ++ '}' :: dt := by
                rw [← hdw]
                exact (List.takeWhile_append_dropWhile _ _).symm
              by_cases h3 : r1.takeWhile (fun c => c ≠ '}') = []
              case pos =>
                simp only [findVarsF, h2, h3, if_true, if_false, reduceIte] at hnm
                obtain ⟨a, b, hab, hne, hmem⟩ := ih ('{' :: r1) nm hnm
                exact ⟨'$' :: a, b, by simp [hab], hne, hmem⟩
              case neg =>
                simp only [findVarsF, h2, h3, if_true, if_false, reduceIte, hdw] at hnm
                rcases List.mem_cons.mp hnm with hnm | hnm
                · subst hnm
                  refine ⟨[], dt, ?_, h3, ?_⟩
                  · simp only [List.nil_append, List.cons_append]
                    rw [← hr1]
                  · intro hmem
                    have := List.mem_takeWhile_imp hmem
                    simp at this
                · obtain ⟨a, b, hab, hne, hmem⟩ := ih dt nm hnm
                  refine ⟨'$' :: '{' :: (r1.takeWhile (fun c => c ≠ '}') ++ '}' :: a), b, ?_, hne, hmem⟩
                  have hr2 : r1 = r1.takeWhile (fun c => c ≠ '}') ++ '}' :: (a ++ ('$' :: '{' :: nm) ++ ('}' :: b)) := by
                    conv_lhs => rw [hr1]
                    rw [hab]
                  conv_lhs => rw [hr2]
                  simp [List.cons_append, List.append_assoc]

/-- Membership in the extractor output is membership among the found names. -/
theorem discover_variables_mem (s : List Char) (x : String) :
    x ∈ discover_variables s ↔ x ∈ varNames s := by
  unfold discover_variables
  rw [(sortStrings_perm (varNames s).dedup).mem_iff]
  exact List.mem_dedup

/-- Claim C8: `discover_variables` returns the sorted list of the distinct
names found by the scan: sorted, duplicate-free, containing exactly the
found names, each of which occurs in the text as a dollar-brace marker,
and depending only on the set of found names, so the repetition count of
a marker is irrelevant. -/
theorem discover_variables_sorted_unique (s : List Char) :
    (discover_variables s).Sorted (fun a b => strLe a b = true) ∧
    (discover_variables s).Nodup ∧
    (∀ x, x ∈ discover_variables s ↔ x ∈ varNames s) ∧
    (∀ nm, nm ∈ discover_variables s →
       ∃ a b, s = a ++ ('$' :: '{' :: nm.data) ++ ('}' :: b) ∧ nm ≠ "" ∧ '}' ∉ nm.data) ∧
    (∀ t : List Char, (∀ x, x ∈ varNames t ↔ x ∈ varNames s) →
       discover_variables t = discover_variables s) := by
  have hmemiff : ∀ x, x ∈ discover_variables s ↔ x ∈ varNames s := discover_variables_mem s
  refine ⟨sortStrings_sorted _, ?_, hmemiff, ?_, ?_⟩
  · exact ((sortStrings_perm (varNames s).dedup).symm.nodup (List.nodup_dedup _))
  · intro nm hnm
    have hv : nm ∈ varNames s := (hmemiff nm).mp hnm
    unfold varNames at hv
    obtain ⟨l, hl, hlnm⟩ := List.mem_map.mp hv
    obtain ⟨a, b, hab, hne, hmem⟩ := findVarsF_sound s.length s l hl
    subst hlnm
    refine ⟨a, b, hab, ?_, hmem⟩
    intro hcon
    exact hne (congrArg String.data hcon)
  · intro t hiff
    haveI : IsTrans String (fun a b => strLe a b = true) := ⟨fun a b c => charListLe_trans a.data b.data c.data⟩
    haveI : IsAntisymm String (fun a b => strLe a b = true) := ⟨strLe_antisymm⟩
    apply List.eq_of_perm_of_sorted ?_ (sortStrings_sorted _) (sortStrings_sorted _)
    refine ((sortStrings_perm _).trans ?_).trans (sortStrings_perm _).symm
    apply List.perm_of_nodup_nodup_toFinset_eq (List.nodup_dedup _) (List.nodup_dedup _)
    apply Finset.ext
    intro x
    simp only [List.mem_toFinset, List.mem_dedup]
    exact hiff x

/-- Claim C8 witness. -/
theorem discover_variables_sorted_unique_witness :
    (discover_variables ("${B} ${A} ${A}".data)).Sorted (fun a b => strLe a b = true) ∧
    discover_variables ("x${A}y${B}z".data) = discover_variables ("${B} ${A} ${A}".data) :=
  ⟨(discover_variables_sorted_unique ("${B} ${A} ${A}".data)).1,
   (discover_variables_sorted_unique ("${B} ${A} ${A}".data)).2.2.2.2 ("x${A}y${B}z".data) (by
     rw [show varNames ("x${A}y${B}z".data) = ["A", "B"] from by decide,
        show varNames ("${B} ${A} ${A}".data) = ["B", "A", "A"] from by decide]
     intro x
     simp
     tauto)⟩

/-! ## Claim C1 -/

theorem isIdCont_ne_brace (c : Char) (h : isIdCont c = true) : c ≠ '}' := by
  intro hc
  subst hc
  simp [isIdCont, Char.isAlphanum, Char.isAlpha, Char.isDigit, Char.isUpper, Char.isLower] at h

theorem takeWhile_id_brace (cs : List Char) (r2 : List Char)
    (h : cs.dropWhile isIdCont = '}' :: r2) :
    cs.takeWhile (fun c => c ≠ '}') = cs.takeWhile isIdCont ∧
    cs.dropWhile (fun c => c ≠ '}') = '}' :: r2 := by
  induction cs with
  | nil => simp [List.dropWhile] at h
  | cons x xs ih =>
    by_cases hx : isIdCont x = true
    case pos =>
      have hxb : x ≠ '}' := isIdCont_ne_brace x hx
      rw [List.dropWhile_cons_of_pos hx] at h
      obtain ⟨ht, hd⟩ := ih h
      constructor
      · rw [List.takeWhile_cons_of_pos (p := fun c => decide (c ≠ '}')) (by simpa using hxb),
           List.takeWhile_cons_of_pos hx, ht]
      · rw [List.dropWhile_cons_of_pos (p := fun c => decide (c ≠ '}')) (by simpa using hxb)]
        exact hd
    case neg =>
      rw [List.dropWhile_cons_of_neg (by simpa using hx)] at h
      cases h
      constructor
      · simp [List.takeWhile_cons, hx]
      · simp [List.dropWhile_cons]

theorem alookup_mem {α : Type} (m : List (String × α)) (k : String) (v : α)
    (h : alookup m k = some v) : (k, v) ∈ m := by
  induction m with
  | nil => simp [alookup] at h
  | cons p r ih =>
    cases p with
    | mk k' v' =>
      rw [alookup] at h
      by_cases hk : k' = k
      · subst hk
        rw [if_pos rfl] at h
        simp at h
        subst h
        exact List.mem_cons_self _ _
      · rw [if_neg hk] at h
        exact List.mem_cons_of_mem _ (ih h)

theorem findVarsF_no_dollar (f : Nat) : ∀ s : List Char, '$' ∉ s → findVarsF f s = [] := by
  induction f with
  | zero => intro s _; cases s <;> rfl
  | succ f ih =>
    intro s hs
    cases s with
    | nil => rfl
    | cons c0 rest =>
      have h0 : c0 ≠ '$' := fun h => hs (h ▸ List.mem_cons_self c0 rest)
      simp only [findVarsF, h0, if_false, reduceIte]
      exact ih rest (fun h => hs (List.mem_cons_of_mem c0 h))

theorem pySubstituteF_good : ∀ (f : Nat), ∀ (t : List Char) (m : List (String × String)),
    t.length ≤ f → goodTemplateF f t = true →
    (∀ nm ∈ findVarsF f t, (alookup m (String.mk nm)).isSome = true) →
    (∀ p ∈ m, '$' ∉ p.2.data) →
    ∃ out, pySubstituteF m f t = .ok out ∧ '$' ∉ out := by
  intro f
  induction f with
  | zero =>
    intro t m hlen hgood hnames hvals
    cases t with
    | nil => exact ⟨[], rfl, by simp⟩
    | cons c r => simp at hlen
  | succ f ih =>
    intro t m hlen hgood hnames hvals
    cases t with
    | nil => exact ⟨[], rfl, by simp⟩
    | cons c0 rest =>
      by_cases h0 : c0 = '$'
      case neg =>
        simp only [goodTemplateF, h0, if_false, reduceIte] at hgood
        simp only [findVarsF, h0, if_false, reduceIte] at hnames
        obtain ⟨out, hout, hd⟩ := ih rest m (by simp at hlen; omega) hgood hnames hvals
        refine ⟨c0 :: out, ?_, ?_⟩
        · simp only [pySubstituteF, h0, if_false, reduceIte, hout]
        · intro hmem
          rcases List.mem_cons.mp hmem with h | h
          · exact h0 h.symm
          · exact hd h
      case pos =>
        subst h0
        cases rest with
        | nil => simp [goodTemplateF] at hgood
        | cons c1 r1 =>
          by_cases h1 : c1 = '{'
          case neg =>
            simp [goodTemplateF, h1] at hgood
          case pos =>
            subst h1
            cases r1 with
            | nil => simp [goodTemplateF] at hgood
            | cons c cs =>
              by_cases hid : isIdStart c = true
              case neg => simp [goodTemplateF, hid] at hgood
              case pos =>
                by_cases hhd : ((cs.dropWhile isIdCont).head? = some '}')
                case neg => simp [goodTemplateF, hid, hhd] at hgood
                case pos =>
                  obtain ⟨r2, hdw⟩ : ∃ t2, cs.dropWhile isIdCont = '}' :: t2 := by
                    cases hd : cs.dropWhile isIdCont with
                    | nil => rw [hd] at hhd; simp at hhd
                    | cons d dt => rw [hd] at hhd; simp at hhd; exact ⟨dt, by rw [hhd]⟩
                  obtain ⟨htw, hdw2⟩ := takeWhile_id_brace cs r2 hdw
                  have hgood2 : goodTemplateF f r2 = true := by
                    simp only [goodTemplateF, reduceIte, hid, hhd, if_true, hdw] at hgood
                    simpa using hgood
                  have hcne : c ≠ '}' := by
                    intro hc
                    subst hc
                    simp [isIdStart, Char.isAlpha, Char.isUpper, Char.isLower] at hid
                  have hfv : findVarsF (f + 1) ('$' :: '{' :: c :: cs)
                      = (c :: cs.takeWhile isIdCont) :: findVarsF f r2 := by
                    simp only [findVarsF, reduceIte, if_true]
                    rw [List.dropWhile_cons_of_pos (p := fun ch => decide (ch ≠ '}')) (by simpa using hcne),
                        List.takeWhile_cons_of_pos (p := fun ch => decide (ch ≠ '}')) (by simpa using hcne),
                        hdw2, htw]
                    simp
                  have hlook : (alookup m (String.mk (c :: cs.takeWhile isIdCont))).isSome = true := by
                    rw [hfv] at hnames
                    exact hnames _ (by simp)
                  obtain ⟨v, hv⟩ := Option.isSome_iff_exists.mp hlook
                  have hvd : '$' ∉ v.data := hvals _ (alookup_mem m _ v hv)
                  have hlen2 : r2.length ≤ f := by
                    have hle := (List.dropWhile_sublist (l := cs) isIdCont).length_le
                    rw [hdw] at hle
                    simp at hle hlen
                    omega
                  have hnames2 : ∀ nm ∈ findVarsF f r2, (alookup m (String.mk nm)).isSome = true := by
                    intro nm hnm
                    rw [hfv] at hnames
                    exact hnames nm (by simp [hnm])
                  obtain ⟨out, hout, hd⟩ := ih r2 m hlen2 hgood2 hnames2 hvals
                  refine ⟨v.data ++ out, ?_, ?_⟩
                  · have hps : pySubstituteF m (f + 1) ('$' :: '{' :: c :: cs) =
                        (if isIdStart c then
                           if ((cs.dropWhile isIdCont).head? = some '}') then
                             match alookup m (String.mk (c :: cs.takeWhile isIdCont)) with
                             | some v =>
                               (match pySubstituteF m f ((cs.dropWhile isIdCont).tail) with
                                | .ok out => .ok (v.data ++ out)
                                | .error e => .error e)
                             | none => .error (.keyError (String.mk (c :: cs.takeWhile isIdCont)))
                           else .error .valueError
                         else .error .valueError) := rfl
                    rw [hps, if_pos hid, if_pos hhd, hv, hdw]
                    simp only [List.tail_cons]
                    rw [hout]
                  · simp [hd, hvd]

/-- Claim C1 counterexample: two facets.  A lone named placeholder `$A` is
invisible to the extractor, so the map with exactly the extracted keys is
empty and substitution raises `KeyError`; and a value containing a marker
leaves a `${...}` marker in the output even though substitution succeeds
with exactly the extracted keys. -/
theorem tmpl_roundtrip_cex :
    (discover_variables ("$A".data) = [] ∧
     pySubstitute [] ("$A".data) = .error (.keyError "A")) ∧
    (discover_variables ("${A}".data) = ["A"] ∧
     pySubstitute [("A", "${B}")] ("${A}".data) = .ok ("${B}".data) ∧
     findVars ("${B}".data) ≠ []) :=
  ⟨⟨by decide, rfl⟩, by decide, rfl, by decide⟩

/-- Claim C1 (amended): for a template in which every dollar sign starts a
well-formed braced placeholder with an identifier name, substituting with
a map whose key set is exactly the extracted names and whose values
contain no dollar sign succeeds, and the output contains no `${...}`
marker. -/
theorem tmpl_roundtrip_amended (t : List Char) (m : List (String × String))
    (hgood : goodTemplate t = true)
    (hkeys : ∀ k, (alookup m k).isSome = true ↔ k ∈ discover_variables t)
    (hvals : ∀ p ∈ m, '$' ∉ p.2.data) :
    ∃ out, pySubstitute m t = .ok out ∧ findVars out = [] := by
  obtain ⟨out, h1, h2⟩ := pySubstituteF_good t.length t m le_rfl hgood
    (fun nm hnm => (hkeys (String.mk nm)).mpr
      ((discover_variables_mem t (String.mk nm)).mpr (List.mem_map_of_mem _ hnm)))
    hvals
  exact ⟨out, h1, findVarsF_no_dollar out.length out h2⟩

/-- Claim C1 witness. -/
theorem tmpl_roundtrip_amended_witness :
    goodTemplate ("${A} and ${B}".data) = true ∧
    ∃ out, pySubstitute [("A", "x"), ("B", "yz")] ("${A} and ${B}".data) = .ok out ∧
      findVars out = [] :=
  ⟨by decide,
   tmpl_roundtrip_amended ("${A} and ${B}".data) [("A", "x"), ("B", "yz")] (by decide)
     (by
       intro k
       rw [show discover_variables ("${A} and ${B}".data) = ["A", "B"] from by decide]
       by_cases hA : k = "A"
       · subst hA
         simp [alookup]
       · by_cases hB : k = "B"
         · subst hB
           simp [alookup]
         · simp [alookup, hA, hB, Ne.symm hA, Ne.symm hB])
     (by
       intro p hp
       rcases List.mem_cons.mp hp with h | h
       · subst h
         decide
       · rcases List.mem_cons.mp h with h | h
         · subst h
           decide
         · simp at h)⟩

end DashboardRedirect
